import Mathlib

/-!
Verification of the heat-equation solver repository.

The repository contains three Python files:
* `cuda_heat.py` writes out a CUDA C source (`cuda_heat.cu`) implementing the
  GPU backend of a 2D explicit heat-diffusion solver;
* `heat_demo.py` is the Tk front-end that launches backend executables with
  positional `(Nx, Ny, Nt)` arguments and parses `Key: value` stdout lines;
* `error anaylsis/heat_error_analysis.py` is the validation harness.

We embed these pieces shallowly.  Machine doubles are modelled as exact
rationals (the claims under study are about dataflow, guards and exact
algebraic structure, not rounding).  CUDA device memory is modelled as a
total function from flat indices to rationals; the kernel grid/block launch
covers every interior cell exactly once, so one kernel launch is modelled as
the aggregate write it performs on the destination buffer.
-/

namespace HeatCuda

/-- `#define IDX(i,j,N) ((i)*(N)+(j))` from `cuda_heat.cu`: row-major flat index. -/
def IDX (i j N : ℕ) : ℕ := i * N + j

/-- The value `update_kernel` computes for cell `(i, j)` from the source buffer `u`
(`cuda_heat.cu`, lines 13-15): the explicit five-point stencil update. -/
def update_kernel (u : ℕ → ℚ) (Ny : ℕ) (dx dy alpha dt : ℚ) (i j : ℕ) : ℚ :=
  let uxx := (u (IDX (i+1) j Ny) - 2 * u (IDX i j Ny) + u (IDX (i-1) j Ny)) / (dx*dx)
  let uyy := (u (IDX i (j+1) Ny) - 2 * u (IDX i j Ny) + u (IDX i (j-1) Ny)) / (dy*dy)
  u (IDX i j Ny) + alpha * dt * (uxx + uyy)

/-- Whether flat index `k` decodes to an interior cell: the kernel computes
`i = blockIdx.x*blockDim.x + threadIdx.x + 1` (so `i ≥ 1`), likewise `j ≥ 1`,
and guards with `i < Nx-1 && j < Ny-1`.  The launch grid
`((Nx-2+15)/16, (Ny-2+15)/16)` with 16×16 blocks reaches every such cell. -/
def interiorFlat (Nx Ny k : ℕ) : Prop :=
  1 ≤ k / Ny ∧ k / Ny < Nx - 1 ∧ 1 ≤ k % Ny ∧ k % Ny < Ny - 1

instance (Nx Ny k : ℕ) : Decidable (interiorFlat Nx Ny k) := by
  unfold interiorFlat; infer_instance

/-- Aggregate effect of one `update_kernel<<<grid, block>>>(u, uNew, ...)` launch:
every interior cell of the destination buffer receives the stencil value computed
from `u`; every other cell of the destination buffer keeps its previous content
`uNew` (the kernel never touches it). -/
def stepBuffer (u uNew : ℕ → ℚ) (Nx Ny : ℕ) (dx dy alpha dt : ℚ) : ℕ → ℚ :=
  fun k =>
    if interiorFlat Nx Ny k then update_kernel u Ny dx dy alpha dt (k / Ny) (k % Ny)
    else uNew k

/-- The time-stepping loop of `main` (`cuda_heat.cu`, lines 59-63): launch the
kernel reading `d_u` and writing `d_uNew`, then swap the two pointers.  The
state is the pair (current buffer `d_u`, next buffer `d_uNew`). -/
def timeLoop (Nx Ny : ℕ) (dx dy alpha dt : ℚ) : ℕ → (ℕ → ℚ) × (ℕ → ℚ) → (ℕ → ℚ) × (ℕ → ℚ)
  | 0, bufs => bufs
  | n + 1, bufs =>
      timeLoop Nx Ny dx dy alpha dt n (stepBuffer bufs.1 bufs.2 Nx Ny dx dy alpha dt, bufs.1)

/-- One iteration of the loop body, as a function on the buffer pair. -/
def loopBody (Nx Ny : ℕ) (dx dy alpha dt : ℚ) (bufs : (ℕ → ℚ) × (ℕ → ℚ)) :
    (ℕ → ℚ) × (ℕ → ℚ) :=
  (stepBuffer bufs.1 bufs.2 Nx Ny dx dy alpha dt, bufs.1)

theorem IDX_div (i j Ny : ℕ) (hj : j < Ny) : IDX i j Ny / Ny = i := by
  unfold IDX
  rw [mul_comm, Nat.mul_add_div (Nat.zero_lt_of_lt hj)]
  simp [Nat.div_eq_of_lt hj]

theorem IDX_mod (i j Ny : ℕ) (hj : j < Ny) : IDX i j Ny % Ny = j := by
  unfold IDX
  rw [mul_comm, Nat.mul_add_mod]
  exact Nat.mod_eq_of_lt hj

theorem interiorFlat_IDX (Nx Ny i j : ℕ) (hi1 : 1 ≤ i) (hi2 : i < Nx - 1)
    (hj1 : 1 ≤ j) (hj2 : j < Ny - 1) : interiorFlat Nx Ny (IDX i j Ny) := by
  have hj : j < Ny := lt_of_lt_of_le hj2 (Nat.sub_le Ny 1)
  refine ⟨?_, ?_, ?_, ?_⟩ <;>
    simp only [IDX_div i j Ny hj, IDX_mod i j Ny hj] <;> assumption

theorem stepBuffer_interior (u uNew : ℕ → ℚ) (Nx Ny : ℕ) (dx dy alpha dt : ℚ)
    (i j : ℕ) (hi1 : 1 ≤ i) (hi2 : i < Nx - 1) (hj1 : 1 ≤ j) (hj2 : j < Ny - 1) :
    stepBuffer u uNew Nx Ny dx dy alpha dt (IDX i j Ny) =
      update_kernel u Ny dx dy alpha dt i j := by
  have hj : j < Ny := lt_of_lt_of_le hj2 (Nat.sub_le Ny 1)
  unfold stepBuffer
  rw [if_pos (interiorFlat_IDX Nx Ny i j hi1 hi2 hj1 hj2), IDX_div i j Ny hj,
    IDX_mod i j Ny hj]

/-- C1.  For every interior cell `(i,j)` (`1 ≤ i ≤ Nx-2`, `1 ≤ j ≤ Ny-2`), one
kernel launch produces
`U'[i,j] = U[i,j] + alpha*dt*((U[i+1,j]-2U[i,j]+U[i-1,j])/dx² + (U[i,j+1]-2U[i,j]+U[i,j-1])/dy²)`,
and this value depends only on `U[i,j]` and its four direct neighbours: any two
source fields agreeing on those five cells give the same updated value. -/
theorem stencil_interior_update (u uNew : ℕ → ℚ) (Nx Ny : ℕ) (dx dy alpha dt : ℚ)
    (i j : ℕ) (hi1 : 1 ≤ i) (hi2 : i ≤ Nx - 2) (hj1 : 1 ≤ j) (hj2 : j ≤ Ny - 2)
    (hNx : 3 ≤ Nx) (hNy : 3 ≤ Ny) :
    stepBuffer u uNew Nx Ny dx dy alpha dt (IDX i j Ny) =
      u (IDX i j Ny) + alpha * dt *
        ((u (IDX (i+1) j Ny) - 2 * u (IDX i j Ny) + u (IDX (i-1) j Ny)) / dx ^ 2 +
         (u (IDX i (j+1) Ny) - 2 * u (IDX i j Ny) + u (IDX i (j-1) Ny)) / dy ^ 2) ∧
    (∀ v w : ℕ → ℚ,
      v (IDX i j Ny) = w (IDX i j Ny) →
      v (IDX (i+1) j Ny) = w (IDX (i+1) j Ny) →
      v (IDX (i-1) j Ny) = w (IDX (i-1) j Ny) →
      v (IDX i (j+1) Ny) = w (IDX i (j+1) Ny) →
      v (IDX i (j-1) Ny) = w (IDX i (j-1) Ny) →
      stepBuffer v uNew Nx Ny dx dy alpha dt (IDX i j Ny) =
        stepBuffer w uNew Nx Ny dx dy alpha dt (IDX i j Ny)) := by
  have hi2' : i < Nx - 1 := by omega
  have hj2' : j < Ny - 1 := by omega
  constructor
  · rw [stepBuffer_interior u uNew Nx Ny dx dy alpha dt i j hi1 hi2' hj1 hj2']
    unfold update_kernel
    rw [sq, sq]
  · intro v w h0 h1 h2 h3 h4
    rw [stepBuffer_interior v uNew Nx Ny dx dy alpha dt i j hi1 hi2' hj1 hj2',
      stepBuffer_interior w uNew Nx Ny dx dy alpha dt i j hi1 hi2' hj1 hj2']
    unfold update_kernel
    rw [h0, h1, h2, h3, h4]

/-- Witness for C1 on a concrete 3×3 grid at the single interior cell (1,1). -/
theorem stencil_interior_update_witness :
    stepBuffer (fun k => (k : ℚ)) (fun _ => 0) 3 3 1 1 1 1 (IDX 1 1 3) =
      (IDX 1 1 3 : ℚ) + 1 * 1 *
        (((IDX 2 1 3 : ℚ) - 2 * (IDX 1 1 3 : ℚ) + (IDX 0 1 3 : ℚ)) / 1 ^ 2 +
         ((IDX 1 2 3 : ℚ) - 2 * (IDX 1 1 3 : ℚ) + (IDX 1 0 3 : ℚ)) / 1 ^ 2) ∧
    (∀ v w : ℕ → ℚ,
      v (IDX 1 1 3) = w (IDX 1 1 3) →
      v (IDX 2 1 3) = w (IDX 2 1 3) →
      v (IDX 0 1 3) = w (IDX 0 1 3) →
      v (IDX 1 2 3) = w (IDX 1 2 3) →
      v (IDX 1 0 3) = w (IDX 1 0 3) →
      stepBuffer v (fun _ => 0) 3 3 1 1 1 1 (IDX 1 1 3) =
        stepBuffer w (fun _ => 0) 3 3 1 1 1 1 (IDX 1 1 3)) :=
  stencil_interior_update (fun k => (k : ℚ)) (fun _ => 0) 3 3 1 1 1 1 1 1
    (by decide) (by decide) (by decide) (by decide) (by decide) (by decide)

/-- C2.  Read/write discipline and ping-pong of the time loop:
(1) the value a step writes at any interior cell is exactly the stencil function
of the current buffer `u` alone — the kernel reads only `u`, so no update can
observe a same-step write (all writes land in the other buffer);
(2) cells the kernel does not write keep the destination buffer's previous
content, i.e. the step writes only into the destination buffer's interior;
(3) the loop alternates the two buffers: after `n+1` iterations the current
buffer is exactly the kernel output computed from the state after `n`
iterations, and the next buffer is the previous current buffer — step `n+1`
reads exactly the completed output of step `n`. -/
theorem ping_pong_read_write_discipline (u uNew : ℕ → ℚ) (Nx Ny : ℕ)
    (dx dy alpha dt : ℚ) (i j : ℕ)
    (hi1 : 1 ≤ i) (hi2 : i < Nx - 1) (hj1 : 1 ≤ j) (hj2 : j < Ny - 1) :
    stepBuffer u uNew Nx Ny dx dy alpha dt (IDX i j Ny) =
      update_kernel u Ny dx dy alpha dt i j ∧
    (∀ k : ℕ, ¬ interiorFlat Nx Ny k →
      stepBuffer u uNew Nx Ny dx dy alpha dt k = uNew k) ∧
    (∀ (n : ℕ) (bufs : (ℕ → ℚ) × (ℕ → ℚ)),
      timeLoop Nx Ny dx dy alpha dt (n + 1) bufs =
        (stepBuffer (timeLoop Nx Ny dx dy alpha dt n bufs).1
           (timeLoop Nx Ny dx dy alpha dt n bufs).2 Nx Ny dx dy alpha dt,
         (timeLoop Nx Ny dx dy alpha dt n bufs).1)) := by
  refine ⟨stepBuffer_interior u uNew Nx Ny dx dy alpha dt i j hi1 hi2 hj1 hj2, ?_, ?_⟩
  · intro k hk
    unfold stepBuffer
    rw [if_neg hk]
  · intro n
    induction n with
    | zero => intro bufs; rfl
    | succ m ih =>
        intro bufs
        show timeLoop Nx Ny dx dy alpha dt (m + 1) (loopBody Nx Ny dx dy alpha dt bufs) = _
        rw [ih (loopBody Nx Ny dx dy alpha dt bufs)]
        rfl

/-- Witness for C2 on a concrete 3×3 grid. -/
theorem ping_pong_read_write_discipline_witness :
    stepBuffer (fun k => (k : ℚ)) (fun _ => 0) 3 3 1 1 1 1 (IDX 1 1 3) =
      update_kernel (fun k => (k : ℚ)) 3 1 1 1 1 1 1 ∧
    (∀ k : ℕ, ¬ interiorFlat 3 3 k →
      stepBuffer (fun k => (k : ℚ)) (fun _ => 0) 3 3 1 1 1 1 k = (fun _ => (0 : ℚ)) k) ∧
    (∀ (n : ℕ) (bufs : (ℕ → ℚ) × (ℕ → ℚ)),
      timeLoop 3 3 1 1 1 1 (n + 1) bufs =
        (stepBuffer (timeLoop 3 3 1 1 1 1 n bufs).1
           (timeLoop 3 3 1 1 1 1 n bufs).2 3 3 1 1 1 1,
         (timeLoop 3 3 1 1 1 1 n bufs).1)) :=
  ping_pong_read_write_discipline (fun k => (k : ℚ)) (fun _ => 0) 3 3 1 1 1 1 1 1
    (by decide) (by decide) (by decide) (by decide)

/-- C3 (code bug).  The kernel never writes boundary cells and `main` never
initializes the destination buffer `d_uNew` (`cudaMalloc` only; the single
`cudaMemcpy` fills `d_u`).  So after a step the output buffer's boundary holds
the destination buffer's stale content, not the input's boundary: with input
everywhere `1` and destination buffer content `0`, the output at boundary cell
`(0,0)` is `0` while the input there is `1`.  The claim that each step copies
boundary cells from input to output is false of this code. -/
theorem boundary_not_copied_eval :
    stepBuffer (fun _ => 1) (fun _ => 0) 3 3 1 1 1 1 (IDX 0 0 3) = 0 ∧
    (fun _ => (1 : ℚ)) (IDX 0 0 3) = 1 ∧
    stepBuffer (fun _ => 1) (fun _ => 0) 3 3 1 1 1 1 (IDX 0 0 3) ≠
      (fun _ => (1 : ℚ)) (IDX 0 0 3) := by
  refine ⟨?_, rfl, ?_⟩ <;> decide

/-- Grid spacing from `main`: `dx = Lx/(Nx-1)` with `Lx = 1.0` (and likewise
`dy = Ly/(Ny-1)` with `Ly = 1.0`). -/
def gridSpacing (N : ℕ) : ℚ := 1 / ((N : ℚ) - 1)

/-- Derived time step from `main`: `dt = 0.25 * fmin(dx*dx, dy*dy) / alpha`. -/
def dtOf (dx dy alpha : ℚ) : ℚ := (1 / 4) * min (dx * dx) (dy * dy) / alpha

theorem dt_bound_general (a b alpha : ℚ) (ha : 0 < a) (hb : 0 < b) (hal : 0 < alpha) :
    alpha * dtOf a b alpha * (1 / a ^ 2 + 1 / b ^ 2) ≤ 1 / 2 := by
  have ha2 : (0 : ℚ) < a ^ 2 := by positivity
  have hb2 : (0 : ℚ) < b ^ 2 := by positivity
  have hal' : alpha ≠ 0 := ne_of_gt hal
  have hcancel : alpha * dtOf a b alpha = (1 / 4) * min (a * a) (b * b) := by
    unfold dtOf
    field_simp
    ring
  rw [hcancel]
  have hm1 : min (a * a) (b * b) * (1 / a ^ 2) ≤ 1 := by
    rw [mul_one_div, div_le_one ha2, sq]
    exact min_le_left _ _
  have hm2 : min (a * a) (b * b) * (1 / b ^ 2) ≤ 1 := by
    rw [mul_one_div, div_le_one hb2, sq]
    exact min_le_right _ _
  calc (1 / 4 : ℚ) * min (a * a) (b * b) * (1 / a ^ 2 + 1 / b ^ 2)
      = (1 / 4) * (min (a * a) (b * b) * (1 / a ^ 2) + min (a * a) (b * b) * (1 / b ^ 2)) := by
        ring
    _ ≤ (1 / 4) * (1 + 1) := by linarith
    _ = 1 / 2 := by norm_num

/-- C4.  For every grid with `Nx, Ny ≥ 3` and every `alpha > 0`, the derived
time step `dt = 0.25 * min(dx², dy²) / alpha` (with `dx = 1/(Nx-1)`,
`dy = 1/(Ny-1)`) satisfies the stability bound
`alpha*dt*(1/dx² + 1/dy²) ≤ 0.5`. -/
theorem dt_stability_bound (Nx Ny : ℕ) (alpha : ℚ) (hNx : 3 ≤ Nx) (hNy : 3 ≤ Ny)
    (hal : 0 < alpha) :
    alpha * dtOf (gridSpacing Nx) (gridSpacing Ny) alpha *
      (1 / gridSpacing Nx ^ 2 + 1 / gridSpacing Ny ^ 2) ≤ 1 / 2 := by
  have hx : (0 : ℚ) < gridSpacing Nx := by
    unfold gridSpacing
    have h3 : (3 : ℚ) ≤ (Nx : ℚ) := by exact_mod_cast hNx
    have : (0 : ℚ) < (Nx : ℚ) - 1 := by linarith
    exact one_div_pos.mpr this
  have hy : (0 : ℚ) < gridSpacing Ny := by
    unfold gridSpacing
    have h3 : (3 : ℚ) ≤ (Ny : ℚ) := by exact_mod_cast hNy
    have : (0 : ℚ) < (Ny : ℚ) - 1 := by linarith
    exact one_div_pos.mpr this
  exact dt_bound_general (gridSpacing Nx) (gridSpacing Ny) alpha hx hy hal

/-- Witness for C4 at the smallest grid `Nx = Ny = 3`, `alpha = 1`. -/
theorem dt_stability_bound_witness :
    (1 : ℚ) * dtOf (gridSpacing 3) (gridSpacing 3) 1 *
      (1 / gridSpacing 3 ^ 2 + 1 / gridSpacing 3 ^ 2) ≤ 1 / 2 :=
  dt_stability_bound 3 3 1 (by decide) (by decide) (by norm_num)

end HeatCuda

namespace HeatErrors

/-- A loaded 2D dataset as the harness sees it: a numpy array with a shape and
row-major contents.  Doubles are modelled as exact rationals. -/
structure NDArray where
  rows : ℕ
  cols : ℕ
  data : List ℚ
deriving DecidableEq

/-- `array.shape`. -/
def NDArray.shape (a : NDArray) : ℕ × ℕ := (a.rows, a.cols)

/-- The `1e-15` guard threshold of `calculate_errors`. -/
def relGuard : ℚ := 1 / 10 ^ 15

/-- `np.mean` over a flattened array. -/
def listMean (l : List ℚ) : ℚ := l.sum / l.length

/-- `np.max` over a flattened array.  `np.max` raises on an empty array; the
theorems below only use this under a nonemptiness hypothesis, where the value
is the genuine maximum of the elements. -/
def listMax : List ℚ → ℚ
  | [] => 0
  | x :: xs => xs.foldl max x

/-- `np.abs(reference - comparison)`, elementwise (line 55). -/
def absoluteErrors (reference comparison : List ℚ) : List ℚ :=
  List.zipWith (fun x y => |x - y|) reference comparison

/-- `np.divide(absolute_errors, np.abs(reference), out=zeros, where=|ref|>1e-15)`
(lines 58-60): the quotient where the guard holds, the untouched `0` of `out`
elsewhere — the division is never performed at guarded-out cells. -/
def relativeErrors (absolute_errors reference : List ℚ) : List ℚ :=
  List.zipWith (fun e r => if relGuard < |r| then e / |r| else 0) absolute_errors reference

/-- `np.mean(np.square(reference - comparison))` (line 63). -/
def mseOf (reference comparison : List ℚ) : ℚ :=
  listMean (List.zipWith (fun x y => (x - y) ^ 2) reference comparison)

/-- Mean of squared deviations from the mean; `np.std` (line 71) is its square
root (numpy default `ddof = 0`). -/
def varOf (l : List ℚ) : ℚ := listMean (l.map (fun x => (x - listMean l) ^ 2))

/-- The metrics record built by `calculate_errors` (lines 73-84).  The two
square-root-valued entries `rmse = sqrt(mse)` and `std = sqrt(varOf abs)` are
kept as the exact radicands here and taken through `Real.sqrt` in `rmseOf` and
`stdAbsOf` below. -/
structure ErrorMetrics where
  mse : ℚ
  max_absolute_error : ℚ
  mean_absolute_error : ℚ
  max_relative_error : ℚ
  mean_relative_error : ℚ
  var_absolute_error : ℚ
  absolute_errors : List ℚ
  relative_errors : List ℚ
deriving DecidableEq

/-- `calculate_errors(reference_data, comparison_data, method_name)` (lines
44-86).  The `None` inputs short-circuit (line 46) belongs to the caller model;
here both arrays are present.  A shape mismatch returns `None` (lines 49-52). -/
def calculate_errors (reference_data comparison_data : NDArray) : Option ErrorMetrics :=
  if reference_data.shape = comparison_data.shape then
    let abs_errs := absoluteErrors reference_data.data comparison_data.data
    some {
      mse := mseOf reference_data.data comparison_data.data
      max_absolute_error := listMax abs_errs
      mean_absolute_error := listMean abs_errs
      max_relative_error := listMax (relativeErrors abs_errs reference_data.data)
      mean_relative_error := listMean (relativeErrors abs_errs reference_data.data)
      var_absolute_error := varOf abs_errs
      absolute_errors := abs_errs
      relative_errors := relativeErrors abs_errs reference_data.data }
  else none

/-- `rmse = np.sqrt(mse)` (line 64). -/
noncomputable def rmseOf (m : ErrorMetrics) : ℝ := Real.sqrt (m.mse : ℝ)

/-- `std_abs_error = np.std(absolute_errors)` (line 71). -/
noncomputable def stdAbsOf (m : ErrorMetrics) : ℝ := Real.sqrt (m.var_absolute_error : ℝ)

theorem absoluteErrors_self (l : List ℚ) :
    absoluteErrors l l = List.replicate l.length 0 := by
  induction l with
  | nil => rfl
  | cons x xs ih =>
      simp only [absoluteErrors, List.zipWith_cons_cons, List.length_cons,
        List.replicate] at ih ⊢
      rw [ih, sub_self, abs_zero]

theorem sq_diff_self (l : List ℚ) :
    List.zipWith (fun x y => (x - y) ^ 2) l l = List.replicate l.length 0 := by
  induction l with
  | nil => rfl
  | cons x xs ih =>
      simp only [List.zipWith_cons_cons, List.length_cons, List.replicate] at ih ⊢
      rw [ih, sub_self]
      norm_num

theorem listMean_replicate_zero (n : ℕ) : listMean (List.replicate n 0) = 0 := by
  unfold listMean
  simp

theorem foldl_max_zero (xs : List ℚ) (h : ∀ x ∈ xs, x = (0 : ℚ)) :
    xs.foldl max 0 = 0 := by
  induction xs with
  | nil => rfl
  | cons y ys ih =>
      have hy : y = 0 := h y (List.mem_cons_self y ys)
      have hys : ∀ x ∈ ys, x = (0 : ℚ) := fun x hx => h x (List.mem_cons_of_mem y hx)
      simp [hy, ih hys]

theorem listMax_replicate_zero (n : ℕ) : listMax (List.replicate n 0) = 0 := by
  cases n with
  | zero => rfl
  | succ m =>
      show listMax (0 :: List.replicate m 0) = 0
      unfold listMax
      exact foldl_max_zero _ (fun x hx => List.eq_of_mem_replicate hx)

/-- C5.  Comparing a nonempty dataset to itself yields `mse = 0`, `rmse = 0`,
`max_absolute_error = 0` and `mean_absolute_error = 0`. -/
theorem self_comparison_zero_errors (a : NDArray) (_h : a.data ≠ []) :
    ∃ m : ErrorMetrics, calculate_errors a a = some m ∧
      m.mse = 0 ∧ rmseOf m = 0 ∧ m.max_absolute_error = 0 ∧
      m.mean_absolute_error = 0 := by
  unfold calculate_errors
  rw [if_pos (rfl : a.shape = a.shape)]
  refine ⟨_, rfl, ?_⟩
  · constructor
    · show mseOf a.data a.data = 0
      unfold mseOf
      rw [sq_diff_self, listMean_replicate_zero]
    constructor
    · show rmseOf _ = 0
      unfold rmseOf
      show Real.sqrt ((mseOf a.data a.data : ℚ) : ℝ) = 0
      have : mseOf a.data a.data = 0 := by
        unfold mseOf
        rw [sq_diff_self, listMean_replicate_zero]
      rw [this]
      simp
    constructor
    · show listMax (absoluteErrors a.data a.data) = 0
      rw [absoluteErrors_self, listMax_replicate_zero]
    · show listMean (absoluteErrors a.data a.data) = 0
      rw [absoluteErrors_self, listMean_replicate_zero]

/-- Witness for C5 on a concrete 1×2 dataset. -/
theorem self_comparison_zero_errors_witness :
    ∃ m : ErrorMetrics,
      calculate_errors ⟨1, 2, [1, 2]⟩ ⟨1, 2, [1, 2]⟩ = some m ∧
      m.mse = 0 ∧ rmseOf m = 0 ∧ m.max_absolute_error = 0 ∧
      m.mean_absolute_error = 0 :=
  self_comparison_zero_errors ⟨1, 2, [1, 2]⟩ (by decide)

theorem getD_zipWith (f : ℚ → ℚ → ℚ) (a b : List ℚ) (i : ℕ)
    (hi : i < (List.zipWith f a b).length) :
    (List.zipWith f a b).getD i 0 = f (a.getD i 0) (b.getD i 0) := by
  have hl : (List.zipWith f a b).length = min a.length b.length := List.length_zipWith f a b
  have hia : i < a.length := lt_of_lt_of_le (hl ▸ hi) (min_le_left _ _)
  have hib : i < b.length := lt_of_lt_of_le (hl ▸ hi) (min_le_right _ _)
  rw [List.getD_eq_getElem _ _ hi, List.getD_eq_getElem _ _ hia, List.getD_eq_getElem _ _ hib]
  exact List.getElem_zipWith

/-- C7.  For same-shape arrays, at every in-range cell the elementwise maps of
`calculate_errors` satisfy `absolute_error = |reference - comparison|`, and
`relative_error = absolute_error / |reference|` when `|reference| > 1e-15` and
`0` otherwise (the guarded cells keep the `out` buffer's zero: no division
happens there). -/
theorem elementwise_error_formulas (ref cmp : NDArray) (m : ErrorMetrics) (i : ℕ)
    (hm : calculate_errors ref cmp = some m) (hi : i < m.absolute_errors.length) :
    m.absolute_errors.getD i 0 = |ref.data.getD i 0 - cmp.data.getD i 0| ∧
    (relGuard < |ref.data.getD i 0| →
      m.relative_errors.getD i 0 =
        |ref.data.getD i 0 - cmp.data.getD i 0| / |ref.data.getD i 0|) ∧
    (|ref.data.getD i 0| ≤ relGuard → m.relative_errors.getD i 0 = 0) := by
  by_cases hs : ref.shape = cmp.shape
  · unfold calculate_errors at hm
    rw [if_pos hs] at hm
    have hm' := Option.some.inj hm
    subst hm'
    simp only at hi ⊢
    have h1 : (absoluteErrors ref.data cmp.data).getD i 0 =
        |ref.data.getD i 0 - cmp.data.getD i 0| := getD_zipWith _ _ _ _ hi
    have hlenA : (absoluteErrors ref.data cmp.data).length =
        min ref.data.length cmp.data.length := List.length_zipWith _ _ _
    have hiref : i < ref.data.length :=
      lt_of_lt_of_le (hlenA ▸ hi) (min_le_left _ _)
    have hirel : i < (relativeErrors (absoluteErrors ref.data cmp.data) ref.data).length := by
      rw [relativeErrors, List.length_zipWith]
      exact lt_min hi hiref
    have h2 : (relativeErrors (absoluteErrors ref.data cmp.data) ref.data).getD i 0 =
        if relGuard < |ref.data.getD i 0| then
          (absoluteErrors ref.data cmp.data).getD i 0 / |ref.data.getD i 0|
        else 0 := getD_zipWith _ _ _ _ hirel
    refine ⟨h1, ?_, ?_⟩
    · intro hg
      rw [h2, if_pos hg, h1]
    · intro hg
      rw [h2, if_neg (not_lt.mpr hg)]
  · unfold calculate_errors at hm
    rw [if_neg hs] at hm
    exact absurd hm (by simp)

/-- Witness for C7 at cell 0 of the concrete pair `[1, 0]` vs `[2, 5]`. -/
theorem elementwise_error_formulas_witness :
    ({ mse := 13, max_absolute_error := 5, mean_absolute_error := 3,
       max_relative_error := 1, mean_relative_error := 1/2, var_absolute_error := 4,
       absolute_errors := [1, 5], relative_errors := [1, 0] } :
        ErrorMetrics).absolute_errors.getD 0 0 =
      |(⟨1, 2, [1, 0]⟩ : NDArray).data.getD 0 0 -
        (⟨1, 2, [2, 5]⟩ : NDArray).data.getD 0 0| ∧
    (relGuard < |(⟨1, 2, [1, 0]⟩ : NDArray).data.getD 0 0| →
      ({ mse := 13, max_absolute_error := 5, mean_absolute_error := 3,
         max_relative_error := 1, mean_relative_error := 1/2, var_absolute_error := 4,
         absolute_errors := [1, 5], relative_errors := [1, 0] } :
          ErrorMetrics).relative_errors.getD 0 0 =
        |(⟨1, 2, [1, 0]⟩ : NDArray).data.getD 0 0 -
          (⟨1, 2, [2, 5]⟩ : NDArray).data.getD 0 0| /
          |(⟨1, 2, [1, 0]⟩ : NDArray).data.getD 0 0|) ∧
    (|(⟨1, 2, [1, 0]⟩ : NDArray).data.getD 0 0| ≤ relGuard →
      ({ mse := 13, max_absolute_error := 5, mean_absolute_error := 3,
         max_relative_error := 1, mean_relative_error := 1/2, var_absolute_error := 4,
         absolute_errors := [1, 5], relative_errors := [1, 0] } :
          ErrorMetrics).relative_errors.getD 0 0 = 0) :=
  elementwise_error_formulas ⟨1, 2, [1, 0]⟩ ⟨1, 2, [2, 5]⟩
    { mse := 13, max_absolute_error := 5, mean_absolute_error := 3,
      max_relative_error := 1, mean_relative_error := 1/2, var_absolute_error := 4,
      absolute_errors := [1, 5], relative_errors := [1, 0] } 0
    (by norm_num [calculate_errors, NDArray.shape, absoluteErrors, relativeErrors,
      mseOf, listMean, listMax, varOf, relGuard])
    (by decide)

/-- C10.  The aggregate absolute-error metrics of `calculate_errors` are
symmetric in the two arguments: swapping reference and comparison (of equal
shape) leaves `mse`, `rmse`, `max_absolute_error`, `mean_absolute_error` and
`std_absolute_error` unchanged. -/
theorem abs_metrics_symmetric (a b : NDArray) (h : a.shape = b.shape) :
    ∃ ma mb : ErrorMetrics, calculate_errors a b = some ma ∧
      calculate_errors b a = some mb ∧
      ma.mse = mb.mse ∧ rmseOf ma = rmseOf mb ∧
      ma.max_absolute_error = mb.max_absolute_error ∧
      ma.mean_absolute_error = mb.mean_absolute_error ∧
      stdAbsOf ma = stdAbsOf mb := by
  have habs : absoluteErrors a.data b.data = absoluteErrors b.data a.data :=
    List.zipWith_comm_of_comm _ (fun x y => abs_sub_comm x y) a.data b.data
  have hmse : mseOf a.data b.data = mseOf b.data a.data := by
    unfold mseOf
    rw [List.zipWith_comm_of_comm _ (fun x y => by ring) a.data b.data]
  unfold calculate_errors
  rw [if_pos h, if_pos h.symm]
  refine ⟨_, _, rfl, rfl, ?_, ?_, ?_, ?_, ?_⟩
  · exact hmse
  · dsimp only [rmseOf]
    rw [hmse]
  · dsimp only
    rw [habs]
  · dsimp only
    rw [habs]
  · dsimp only [stdAbsOf]
    rw [habs]

/-- Witness for C10 on the concrete pair `[1, 2]` vs `[3, 5]`. -/
theorem abs_metrics_symmetric_witness :
    ∃ ma mb : ErrorMetrics,
      calculate_errors ⟨1, 2, [1, 2]⟩ ⟨1, 2, [3, 5]⟩ = some ma ∧
      calculate_errors ⟨1, 2, [3, 5]⟩ ⟨1, 2, [1, 2]⟩ = some mb ∧
      ma.mse = mb.mse ∧ rmseOf ma = rmseOf mb ∧
      ma.max_absolute_error = mb.max_absolute_error ∧
      ma.mean_absolute_error = mb.mean_absolute_error ∧
      stdAbsOf ma = stdAbsOf mb :=
  abs_metrics_symmetric ⟨1, 2, [1, 2]⟩ ⟨1, 2, [3, 5]⟩ rfl

/-- The per-method metrics `main` computes inline (lines 250-264): `mse`,
`max_absolute_error` and the elementwise `absolute_error` map (`rmse` is the
square root of `mse` and is omitted from the exact record). -/
structure MainErrorEntry where
  mse : ℚ
  max_absolute_error : ℚ
  absolute_error : List ℚ
deriving DecidableEq

/-- The metrics `main` stores for one shape-compatible method. -/
def mainMetrics (reference_data data : NDArray) : MainErrorEntry :=
  { mse := mseOf reference_data.data data.data
    max_absolute_error := listMax (absoluteErrors reference_data.data data.data)
    absolute_error := absoluteErrors reference_data.data data.data }

/-- The comparison loop of `main` (lines 242-265): for each method, skip it
(`continue`) when its shape differs from the reference, otherwise add its
metrics to `all_errors`. -/
def mainComparisonErrors (reference_data : NDArray) (methods : List (String × NDArray)) :
    List (String × MainErrorEntry) :=
  methods.filterMap fun md =>
    if reference_data.shape = md.2.shape then some (md.1, mainMetrics reference_data md.2)
    else none

/-- The method names `generate_error_report` writes, one summary row and one
detail section per entry of `all_errors` (lines 113-130). -/
def reportMethodNames (all_errors : List (String × MainErrorEntry)) : List String :=
  all_errors.map Prod.fst

theorem nodup_key_unique {α : Type} (ms : List (String × α)) (n : String) (d e : α)
    (hnd : (ms.map Prod.fst).Nodup) (hd : (n, d) ∈ ms) (he : (n, e) ∈ ms) : d = e := by
  induction ms with
  | nil => cases hd
  | cons p ps ih =>
      rw [List.map_cons, List.nodup_cons] at hnd
      rcases List.mem_cons.mp hd with hd1 | hd2 <;>
        rcases List.mem_cons.mp he with he1 | he2
      · exact congrArg Prod.snd (hd1.trans he1.symm)
      · exact absurd (List.mem_map_of_mem Prod.fst he2)
          (by rw [← hd1] at hnd; exact hnd.1)
      · exact absurd (List.mem_map_of_mem Prod.fst hd2)
          (by rw [← he1] at hnd; exact hnd.1)
      · exact ih hnd.2 hd2 he2

theorem mem_report_iff (reference_data : NDArray) (methods : List (String × NDArray))
    (n : String) :
    n ∈ reportMethodNames (mainComparisonErrors reference_data methods) ↔
      ∃ d : NDArray, (n, d) ∈ methods ∧ reference_data.shape = d.shape := by
  unfold reportMethodNames mainComparisonErrors
  rw [List.mem_map]
  constructor
  · rintro ⟨e, he, hfst⟩
    rcases List.mem_filterMap.mp he with ⟨md, hmd, hsome⟩
    by_cases hs : reference_data.shape = md.2.shape
    · rw [if_pos hs] at hsome
      refine ⟨md.2, ?_, hs⟩
      have : md.1 = n := by
        have := Option.some.inj hsome
        rw [← hfst, ← this]
      rw [← this]
      exact hmd
    · rw [if_neg hs] at hsome
      cases hsome
  · rintro ⟨d, hd, hs⟩
    refine ⟨(n, mainMetrics reference_data d), ?_, rfl⟩
    exact List.mem_filterMap.mpr ⟨(n, d), hd, by rw [if_pos hs]⟩

/-- C6.  In the validation pass, a method whose shape differs from the
reference is skipped — it contributes no metrics and no report row — while
every shape-compatible method still appears in the report (method names are
distinct in `main`, where `comparison_methods` is a literal dict). -/
theorem shape_mismatch_skip (reference_data : NDArray)
    (methods : List (String × NDArray)) (n nc : String) (d dc : NDArray)
    (hnd : (methods.map Prod.fst).Nodup)
    (hmem : (n, d) ∈ methods) (hmis : reference_data.shape ≠ d.shape)
    (hmemc : (nc, dc) ∈ methods) (hok : reference_data.shape = dc.shape) :
    n ∉ reportMethodNames (mainComparisonErrors reference_data methods) ∧
    nc ∈ reportMethodNames (mainComparisonErrors reference_data methods) := by
  constructor
  · intro hn
    rcases (mem_report_iff reference_data methods n).mp hn with ⟨e, hmeme, hse⟩
    exact hmis (nodup_key_unique methods n d e hnd hmem hmeme ▸ hse)
  · exact (mem_report_iff reference_data methods nc).mpr ⟨dc, hmemc, hok⟩

/-- Witness for C6: a 2×2 comparison against a 3×3 reference is skipped while
a compatible 3×3 method still appears. -/
theorem shape_mismatch_skip_witness :
    "cuda" ∉ reportMethodNames (mainComparisonErrors ⟨3, 3, []⟩
      [("openmp", ⟨3, 3, []⟩), ("cuda", ⟨2, 2, []⟩)]) ∧
    "openmp" ∈ reportMethodNames (mainComparisonErrors ⟨3, 3, []⟩
      [("openmp", ⟨3, 3, []⟩), ("cuda", ⟨2, 2, []⟩)]) :=
  shape_mismatch_skip ⟨3, 3, []⟩ [("openmp", ⟨3, 3, []⟩), ("cuda", ⟨2, 2, []⟩)]
    "cuda" "openmp" ⟨2, 2, []⟩ ⟨3, 3, []⟩
    (by decide) (by simp) (by decide) (by simp) (by decide)

/-- `load_heat_data` result as `main` receives it: `none` both when the file is
missing (lines 10-12) and when parsing raises (lines 40-42) — in either case
the loader returns `(None, None)` instead of raising. -/
def loadHeatData (files : String → Option NDArray) (filename : String) : Option NDArray :=
  files filename

/-- The data-loading and comparison flow of `main` (lines 211-265): after each
load, `main` evaluates `<data>.shape` in a print statement.  When the load
returned `None` that attribute access raises `AttributeError`; the surrounding
`try` catches only `FileNotFoundError`, so the exception escapes `main` and the
validation pass aborts with no report.  When all four loads succeed, the
comparison loop runs and the report is generated with one row per
shape-compatible method. -/
def mainValidation (files : String → Option NDArray) : Except String (List String) :=
  match loadHeatData files "serial_heat_distribution.csv" with
  | none => Except.error "AttributeError: NoneType object has no attribute shape"
  | some serial_data =>
    match loadHeatData files "openmp_heat_distribution.csv" with
    | none => Except.error "AttributeError: NoneType object has no attribute shape"
    | some openmp_data =>
      match loadHeatData files "cuda_heat_distribution.csv" with
      | none => Except.error "AttributeError: NoneType object has no attribute shape"
      | some cuda_data =>
        match loadHeatData files "hybrid_heat_distribution.csv" with
        | none => Except.error "AttributeError: NoneType object has no attribute shape"
        | some hybrid_data =>
          Except.ok (reportMethodNames (mainComparisonErrors serial_data
            [("openmp", openmp_data), ("cuda", cuda_data), ("hybrid", hybrid_data)]))

/-- A file system where the CUDA result file is missing (or corrupt) and the
other three result files hold the same well-formed 1×2 dataset. -/
def filesMissingCuda : String → Option NDArray := fun filename =>
  if filename = "cuda_heat_distribution.csv" then none
  else some ⟨1, 2, [1, 2]⟩

/-- C9 (code bug).  With one result file missing or corrupt, `main` does not
skip that method: `load_heat_data` returns `None`, the following
`print(f"... {cuda_data.shape}")` raises `AttributeError`, the `try` block
catches only `FileNotFoundError`, and the pass aborts producing no report.
Had the loop been reached, the two healthy comparison methods would have made
it into the report. -/
theorem missing_file_aborts_validation :
    mainValidation filesMissingCuda =
      Except.error "AttributeError: NoneType object has no attribute shape" ∧
    (∀ names : List String, mainValidation filesMissingCuda ≠ Except.ok names) ∧
    reportMethodNames (mainComparisonErrors ⟨1, 2, [1, 2]⟩
      [("openmp", ⟨1, 2, [1, 2]⟩), ("hybrid", ⟨1, 2, [1, 2]⟩)]) =
      ["openmp", "hybrid"] := by
  refine ⟨rfl, ?_, rfl⟩
  intro names h
  rw [show mainValidation filesMissingCuda =
    Except.error "AttributeError: NoneType object has no attribute shape" from rfl] at h
  cases h

end HeatErrors

namespace HeatInterface

/-- The grid size and step count `main` of `cuda_heat.cu` actually runs with.
`main(int argc, char *argv[])` declares its arguments but never reads them:
`Nx = 200, Ny = 200, Nt = 1000` are hardcoded (lines 20-21), whatever `argv`
holds. -/
def cudaConfig (_argv : List String) : ℕ × ℕ × ℕ := (200, 200, 1000)

/-- Does the character list `p` lead the character list `s`? -/
def leadsWith : List Char → List Char → Bool
  | [], _ => true
  | _ :: _, [] => false
  | p :: ps, c :: cs => p == c && leadsWith ps cs

/-- Does `p` occur as a contiguous run inside `s`? -/
def hasSeq (p : List Char) : List Char → Bool
  | [] => p.isEmpty
  | c :: cs => leadsWith p (c :: cs) || hasSeq p cs

/-- Python `sub in line` on strings. -/
def strHas (line sub : String) : Bool := hasSeq sub.data line.data

/-- Python `line.split(":")[1].strip()` (`heat_demo.py`, value extraction). -/
def valueAfter (line : String) : String := ((line.splitOn ":").getD 1 "").trim

/-- The metrics dictionary of `HeatEquationApp.parse_and_visualize`
(`heat_demo.py`, lines 210-218). -/
structure ParsedMetrics where
  implementation : String
  threads : String
  gridSize : String
  timeSteps : String
  time : String
  throughput : String
  centerValue : String
deriving DecidableEq

/-- Initial metrics dictionary: implementation and grid size are pre-filled,
everything else is "N/A" (lines 210-218). -/
def initMetrics (implementation gridSize : String) : ParsedMetrics :=
  { implementation := implementation, threads := "N/A", gridSize := gridSize,
    timeSteps := "N/A", time := "N/A", throughput := "N/A", centerValue := "N/A" }

/-- The per-line `if/elif` chain of `parse_and_visualize` (lines 220-234): a
field is overwritten exactly when `"Key:"` occurs in the line. -/
def parseLine (m : ParsedMetrics) (line : String) : ParsedMetrics :=
  if strHas line "Implementation:" then { m with implementation := valueAfter line }
  else if strHas line "Threads:" then { m with threads := valueAfter line }
  else if strHas line "GridSize:" then { m with gridSize := valueAfter line }
  else if strHas line "TimeSteps:" then { m with timeSteps := valueAfter line }
  else if strHas line "Time:" then { m with time := valueAfter line }
  else if strHas line "Throughput:" then { m with throughput := valueAfter line }
  else if strHas line "CenterValue:" then { m with centerValue := valueAfter line }
  else m

/-- Parse all stdout lines of a backend run (the `for line in lines` loop). -/
def parseMetrics (m : ParsedMetrics) (lines : List String) : ParsedMetrics :=
  lines.foldl parseLine m

/-- The stdout lines `main` of `cuda_heat.cu` prints (lines 80-83), with the
three formatted numbers abstracted as strings. -/
def cudaReportLines (timeStr mlupsStr centerStr : String) : List String :=
  ["CUDA run (GPU):",
   "  Time           : " ++ timeStr ++ " s",
   "  Throughput     : " ++ mlupsStr ++ " MLUPS",
   "  u_center (mid) : " ++ centerStr]

/-- The seven stdout keys the specification (and `heat_demo.py`) require of
every backend executable. -/
def specKeys : List String :=
  ["Implementation", "Threads", "GridSize", "TimeSteps", "Time", "Throughput",
   "CenterValue"]

/-- C8 (code bug).  The CUDA backend neither takes `(Nx, Ny, Nt)` from the
command line nor prints the required `Key: value` lines: called with arguments
`100 100 500` it still runs `200×200` for `1000` steps, none of the seven
required keys (followed by a colon) occurs in its output, and the in-repo
front-end parser applied to that output learns nothing — every field keeps its
pre-filled default. -/
theorem cuda_cli_contract_violated :
    cudaConfig ["100", "100", "500"] = (200, 200, 1000) ∧
    cudaConfig ["100", "100", "500"] ≠ (100, 100, 500) ∧
    parseMetrics (initMetrics "CUDA" "100x100")
        (cudaReportLines "0.123456" "812.34" "0.567890") =
      initMetrics "CUDA" "100x100" ∧
    ((cudaReportLines "0.123456" "812.34" "0.567890").all fun line =>
      specKeys.all fun k => !(strHas line (k ++ ":"))) = true := by
  refine ⟨rfl, by decide, by decide, by decide⟩

end HeatInterface
